import Mathlib

/-!
Verification development for the Friday Journals pipeline (app.py).

The shallow embedding models the core of the program:

* `findAppNos` embeds `re.findall(r"Application No\.(\d+)\s*A", text)`:
  scan left to right, and at each position try to match the literal label
  `Application No.`, then one or more decimal digits (captured), then
  optional whitespace, then the literal letter `A`.  For this pattern the
  greedy maximal-munch scan coincides with the regex engine: digits cannot
  be whitespace or `A`, so no backtracking can ever succeed where the
  maximal parse failed.  Matches are non-overlapping; scanning resumes
  after the end of each match.
* `process_pdf` embeds `FridayJournals.process_pdf`.  A PDF is modelled as
  `Option (List (Option String))`: `none` means opening or parsing the file
  raises, and a `none` page means `page.extract_text()` raises.  The
  source wraps the whole page loop in one `try`, so an exception on any
  page escapes the loop and the function returns whatever the two
  accumulator lists held at that point.
* `process_journal` embeds `FridayJournals.process_journal`.  The fetch
  stage (`download_pdfs`, network and browser I/O) is modelled by its
  result, the list of downloaded parts handed to the rest of the run.
  The persisted metadata index is modelled as `Option Metadata`: `none`
  means the file does not exist, otherwise the JSON object it holds,
  as an insertion-ordered association list (a Python dict).  `json.dump`
  followed by `json.load` is modelled as the identity on that value;
  the program only ever writes objects of this shape.  Writing the
  spreadsheet (`create_excel`) can raise inside pandas; the Boolean
  `writeFails` models that environmental failure.
* `get_friday_date` embeds the date computation on days since the Unix
  epoch (1970-01-01 was a Thursday, Python weekday 3); `strftime` keeps
  only the calendar date, so day granularity captures the behaviour.
-/

/-- The literal label of the extraction pattern, as a character list. -/
def appLabel : List Char := "Application No.".toList

/-- Match a literal character list at the head of the input; on success
return the rest of the input. -/
def stripLit : List Char → List Char → Option (List Char)
  | [], rest => some rest
  | _ :: _, [] => none
  | c :: cs, d :: ds => if c = d then stripLit cs ds else none

/-- Try to match `Application No\.(\d+)\s*A` at the start of the input.
On success return the captured digit group and the input remaining after
the final `A`. -/
def matchAt (l : List Char) : Option (List Char × List Char) :=
  match stripLit appLabel l with
  | none => none
  | some l1 =>
    let ds := l1.takeWhile Char.isDigit
    let l2 := l1.dropWhile Char.isDigit
    if ds.isEmpty then none
    else
      match l2.dropWhile Char.isWhitespace with
      | 'A' :: rest => some (ds, rest)
      | _ => none

/-- Fuel-indexed scan for all non-overlapping matches, left to right.
The fuel is instantiated with the input length, which always suffices:
each step consumes at least one character. -/
def findAllAux : Nat → List Char → List (List Char)
  | 0, _ => []
  | _ + 1, [] => []
  | fuel + 1, c :: cs =>
    match matchAt (c :: cs) with
    | some (ds, rest) => ds :: findAllAux fuel rest
    | none => findAllAux fuel cs

/-- Embedding of `re.findall(r"Application No\.(\d+)\s*A", text)`:
the list of captured digit groups, in text order. -/
def findAppNos (s : String) : List String :=
  (findAllAux s.toList.length s.toList).map fun ds => String.mk ds


/-- A downloaded journal part: the path the bytes were saved under, and
the parsed document.  `pages = none` models `PyPDF2.PdfReader` (or the
file open) raising; a `none` page models `page.extract_text()` raising. -/
structure PdfFile where
  path : String
  pages : Option (List (Option String))

/-- The page loop of `FridayJournals.process_pdf`, lines 177-184 of
app.py, with the two accumulator lists explicit.  The whole loop sits
inside one `try`, so a page whose text extraction raises (`none`) ends
the loop at once and the accumulated results are returned as they stand:
the failing page and every later page are neither scanned nor recorded. -/
def extractGo (path : String) :
    List (Option String) → Nat → List String → List (String × Nat) →
    List String × List (String × Nat)
  | [], _, nums, unm => (nums, unm)
  | none :: _, _, nums, unm => (nums, unm)
  | some t :: rest, i, nums, unm =>
    if (findAppNos t).isEmpty then
      extractGo path rest (i + 1) nums (unm ++ [(path, i)])
    else
      extractGo path rest (i + 1) (nums ++ findAppNos t) unm

/-- Embedding of `FridayJournals.process_pdf`: returns the application
numbers found and the `(path, zero-based page index)` pairs of pages with
no match.  If opening or parsing the PDF raises (`none`), both lists are
empty. -/
def process_pdf (path : String) (pdf : Option (List (Option String))) :
    List String × List (String × Nat) :=
  match pdf with
  | none => ([], [])
  | some pages => extractGo path pages 0 [] []

/-- The accumulation loop of `process_journal`, lines 94-97 of app.py:
extend the application-number list and the unmatched-page list with each
part's results, in part order. -/
def combineExtract : List PdfFile → List String × List (String × Nat)
  | [] => ([], [])
  | p :: rest =>
    let r := process_pdf p.path p.pages
    let rr := combineExtract rest
    (r.1 ++ rr.1, r.2 ++ rr.2)

/-- JSON values of the shapes the metadata file ever holds. -/
inductive Json where
  | jstr : String → Json
  | jnum : Int → Json
  | jobj : List (String × Json) → Json

/-- The metadata index: a JSON object, i.e. an insertion-ordered
association list, as a Python dict round-trips through `json`. -/
abbrev Metadata := List (String × Json)

/-- Python dict assignment `d[k] = v`: replace the value at the first
occurrence of `k`, keeping its position, or append a new entry. -/
def dictInsert : Metadata → String → Json → Metadata
  | [], k, v => [(k, v)]
  | (k', v') :: rest, k, v =>
    if k' = k then (k, v) :: rest else (k', v') :: dictInsert rest k v

/-- Python dict lookup `d[k]` on an association list. -/
def assocLookup : Metadata → String → Option Json
  | [], _ => none
  | (k', v) :: rest, k => if k' = k then some v else assocLookup rest k

/-- Field access `info[k]` on a JSON object value. -/
def jField : Json → String → Option Json
  | Json.jobj kvs, k => assocLookup kvs k
  | _, _ => none

/-- Embedding of `FridayJournals.save_metadata`: `json.dump` rewrites the
whole file with the given object. -/
def save_metadata (_fileState : Option Metadata) (data : Metadata) : Option Metadata :=
  some data

/-- Embedding of `FridayJournals.load_metadata`: `json.load` the file if
it exists, else the empty dict. -/
def load_metadata (fileState : Option Metadata) : Metadata :=
  fileState.getD []

/-- Embedding of `FridayJournals.create_excel`: writing the spreadsheet
either succeeds, returning the output path, or raises inside pandas
(modelled by `writeFails`), in which case the `except` branch returns
`None`. -/
def create_excel (_applicationNumbers : List String) (outputPath : String)
    (writeFails : Bool) : Option String :=
  if writeFails then none else some outputPath

/-- Python `str()` applied to the value `create_excel` returned: the path
itself, or the literal string `None`. -/
def pyStrOfPath : Option String → String
  | none => "None"
  | some p => p

/-- Replace spaces by underscores, as `friday_date.replace(" ", "_")`. -/
def spaceToUnderscore (s : String) : String :=
  String.mk (s.toList.map fun c => if c = ' ' then '_' else c)

/-- The per-date PDF directory `base_dir / "pdfs" / date`. -/
def dateDir (d : String) : String :=
  "friday_journals_data/pdfs/" ++ spaceToUnderscore d

/-- The spreadsheet path `base_dir / "excel" / ...`. -/
def excelPathFor (d : String) : String :=
  "friday_journals_data/excel/" ++ d ++
    " Early and Publication after 18mo (All Jurisdiction).xlsx"

/-- The metadata record written for a processed date, lines 112-117 of
app.py. -/
def mkEntry (pdfDir excelFile : String) (total : Nat) (processedDate : String) : Json :=
  Json.jobj [("pdf_dir", Json.jstr pdfDir),
             ("excel_file", Json.jstr excelFile),
             ("total_applications", Json.jnum total),
             ("processed_date", Json.jstr processedDate)]

/-- Embedding of `FridayJournals.process_journal` for an explicit date.
The fetch stage is modelled by its result `downloaded_files`; `now` is
the timestamp string.  Returns the Boolean result and the metadata file
state after the run.  If no part was downloaded the run aborts with
`False` before touching the index; otherwise every later stage runs and
the run ends with `True`, whatever extraction found. -/
def process_journal (friday_date : String) (downloaded_files : List PdfFile)
    (excelWriteFails : Bool) (now : String) (fileState : Option Metadata) :
    Bool × Option Metadata :=
  if downloaded_files.isEmpty then (false, fileState)
  else
    let r := combineExtract downloaded_files
    let application_numbers := r.1
    let excel_path := create_excel application_numbers (excelPathFor friday_date)
      excelWriteFails
    let metadata := load_metadata fileState
    let entry := mkEntry (dateDir friday_date) (pyStrOfPath excel_path)
      application_numbers.length now
    (true, save_metadata fileState (dictInsert metadata friday_date entry))

/-- Python `datetime.weekday()` on days since the Unix epoch:
1970-01-01 was a Thursday, weekday 3; Monday is 0, Friday is 4. -/
def pyWeekday (d : Int) : Int :=
  (d + 3) % 7

/-- Embedding of `FridayJournals.get_friday_date` on days since the Unix
epoch: `today - timedelta(days=(today.weekday() - 4) % 7)`.  The `%`
of `Int` agrees with the Python operator on negative operands: the
result of `% 7` always lies in `[0, 7)`. -/
def get_friday_date (today : Int) : Int :=
  today - (pyWeekday today - 4) % 7

/-- Specification-side description of the unmatched-page list, following
the words of the spec: walking the pages from index `i`, every page whose
text yields zero matches contributes its `(path, index)` pair, and no
other page contributes anything. -/
def unmatchedPagesSpec (path : String) : Nat → List String → List (String × Nat)
  | _, [] => []
  | i, t :: rest =>
    if (findAppNos t).isEmpty then
      (path, i) :: unmatchedPagesSpec path (i + 1) rest
    else
      unmatchedPagesSpec path (i + 1) rest

lemma extractGo_map_some (path : String) (pages : List String) :
    ∀ (i : Nat) (nums : List String) (unm : List (String × Nat)),
      extractGo path (pages.map some) i nums unm =
        (nums ++ (pages.map findAppNos).flatten,
         unm ++ unmatchedPagesSpec path i pages) := by
  induction pages with
  | nil => intro i nums unm; simp [extractGo, unmatchedPagesSpec]
  | cons t rest ih =>
    intro i nums unm
    by_cases h : (findAppNos t).isEmpty
    · have ht : findAppNos t = [] := by simpa using h
      simp [extractGo, h, unmatchedPagesSpec, ih, ht]
    · simp [extractGo, h, unmatchedPagesSpec, ih]

lemma process_pdf_ok (path : String) (pages : List String) :
    process_pdf path (some (pages.map some)) =
      ((pages.map findAppNos).flatten, unmatchedPagesSpec path 0 pages) := by
  simp [process_pdf, extractGo_map_some]

lemma unmatchedPagesSpec_snd_ge (path : String) :
    ∀ (pages : List String) (i : Nat) (pr : String × Nat),
      pr ∈ unmatchedPagesSpec path i pages → i ≤ pr.2 := by
  intro pages
  induction pages with
  | nil => intro i pr hpr; simp [unmatchedPagesSpec] at hpr
  | cons t rest ih =>
    intro i pr hpr
    by_cases h : (findAppNos t).isEmpty
    · simp [unmatchedPagesSpec, h] at hpr
      rcases hpr with hpr | hpr
      · simp [hpr]
      · exact Nat.le_of_succ_le (ih (i + 1) pr hpr)
    · simp [unmatchedPagesSpec, h] at hpr
      exact Nat.le_of_succ_le (ih (i + 1) pr hpr)

lemma extractGo_stop (path : String) :
    ∀ (pre : List String) (rest : List (Option String)) (i : Nat)
      (nums : List String) (unm : List (String × Nat)),
      extractGo path (pre.map some ++ none :: rest) i nums unm =
        extractGo path (pre.map some) i nums unm := by
  intro pre
  induction pre with
  | nil => intros; simp [extractGo]
  | cons t pre ih =>
    intro rest i nums unm
    by_cases h : (findAppNos t).isEmpty <;> simp [extractGo, h, ih]

lemma assocLookup_dictInsert_self :
    ∀ (m : Metadata) (k : String) (v : Json),
      assocLookup (dictInsert m k v) k = some v := by
  intro m k v
  induction m with
  | nil => simp [dictInsert, assocLookup]
  | cons kv rest ih =>
    by_cases h : kv.1 = k <;> simp [dictInsert, assocLookup, h, ih]

lemma assocLookup_dictInsert_ne :
    ∀ (m : Metadata) (k : String) (v : Json) (k' : String), k' ≠ k →
      assocLookup (dictInsert m k v) k' = assocLookup m k' := by
  intro m k v k' hne
  have hkk : k ≠ k' := Ne.symm hne
  induction m with
  | nil => simp [dictInsert, assocLookup, hkk]
  | cons kv rest ih =>
    by_cases h : kv.1 = k
    · have h1 : kv.1 ≠ k' := by rw [h]; exact hkk
      simp [dictInsert, assocLookup, h, hkk, h1]
    · simp [dictInsert, assocLookup, h, hne, ih]

/-- C1.  The claim says `process_journal` returns `True` only if extraction
produced at least one identifier, and returns `False` whenever extraction
finds zero identifiers.  The code has no such check: after a successful
fetch it runs to the end and returns `True` unconditionally.  Here a run
fetched one part whose single page contains no match, extraction yields
zero identifiers, and the run still returns `True`. -/
theorem process_journal_true_with_zero_identifiers :
    (combineExtract [⟨"p1", some [some "hello"]⟩]).1 = [] ∧
    (process_journal "03 January 2025" [⟨"p1", some [some "hello"]⟩]
        false "ts" none).1 = true := by
  decide

/-- C1 (amended).  `process_journal` returns `True` if and only if the
fetch stage yielded at least one part; the number of identifiers the
extraction stage found plays no role in the returned Boolean. -/
theorem process_journal_success_iff_parts_nonempty (d : String)
    (parts : List PdfFile) (ex : Bool) (now : String) (fs : Option Metadata) :
    (process_journal d parts ex now fs).1 = true ↔ parts ≠ [] := by
  cases parts <;> simp [process_journal]

/-- C2.  The claim says a page whose text extraction raises is recorded
as unmatched and the remaining pages are still processed.  In the code
the `try` wraps the whole page loop, so the exception aborts the
document: with page 0 raising and page 1 containing the match
`Application No.1 A`, `process_pdf` returns `([], [])` — page 0 is not
in the unmatched list and page 1 was never scanned, although its text
matches the pattern. -/
theorem process_pdf_page_error_aborts_document :
    process_pdf "p" (some [none, some "Application No.1 A"]) = ([], []) ∧
    findAppNos "Application No.1 A" = ["1"] := by
  decide

/-- C2 (amended).  An exception while extracting a page's text is caught
at document level, not page level: `process_pdf` returns exactly the
results accumulated over the pages before the first failing page, and
the failing page and all later pages are neither scanned nor recorded as
unmatched. -/
theorem process_pdf_stops_at_first_page_error (path : String)
    (pre : List String) (rest : List (Option String)) :
    process_pdf path (some (pre.map some ++ none :: rest)) =
      process_pdf path (some (pre.map some)) := by
  simp only [process_pdf]
  exact extractGo_stop path pre rest 0 [] []

/-- C3.  A run whose fetch stage yields no parts returns `False` at once
and leaves the metadata file untouched: the file state is returned
exactly as it was, so no entry is added or overwritten and the entry
count is identical before and after the call. -/
theorem process_journal_empty_fetch_no_change (d : String) (ex : Bool)
    (now : String) (fs : Option Metadata) :
    process_journal d [] ex now fs = (false, fs) ∧
    (load_metadata (process_journal d [] ex now fs).2).length =
      (load_metadata fs).length := by
  exact ⟨rfl, rfl⟩

/-- C4.  The extraction pattern on the three reference inputs: the text
`Application No.12345678 A` yields the identifier `12345678`; the text
`Application No. 999 B` yields no match (no digit directly after the
dot, and the suffix letter is wrong); the text `Application No.42A`,
with the suffix letter immediately after the digits, yields `42`. -/
theorem extraction_pattern_examples :
    findAppNos "Application No.12345678 A" = ["12345678"] ∧
    findAppNos "Application No. 999 B" = [] ∧
    findAppNos "Application No.42A" = ["42"] := by
  decide

lemma unmatchedPagesSpec_count (path : String) :
    ∀ (pages : List String) (j i : Nat) (hi : i < pages.length),
      ((findAppNos (pages.get ⟨i, hi⟩)).isEmpty = true →
        List.count (path, j + i) (unmatchedPagesSpec path j pages) = 1) ∧
      ((findAppNos (pages.get ⟨i, hi⟩)).isEmpty = false →
        (path, j + i) ∉ unmatchedPagesSpec path j pages) := by
  intro pages
  induction pages with
  | nil => intro j i hi; simp at hi
  | cons t rest ih =>
    intro j i hi
    have hnot : (path, j) ∉ unmatchedPagesSpec path (j + 1) rest := by
      intro hmem
      have := unmatchedPagesSpec_snd_ge path rest (j + 1) _ hmem
      simp at this
    cases i with
    | zero =>
      constructor
      · intro h
        simp only [List.get] at h
        simp [unmatchedPagesSpec, h, List.count_cons_self,
          List.count_eq_zero.mpr hnot]
      · intro h
        simp only [List.get] at h
        simpa [unmatchedPagesSpec, h] using hnot
    | succ k =>
      have hk : k < rest.length := Nat.lt_of_succ_lt_succ (by simpa using hi)
      have hji : j + (k + 1) = (j + 1) + k := by omega
      have hne : (path, j + (k + 1)) ≠ (path, j) := by
        intro hcontra
        have h2 : j + (k + 1) = j := congrArg Prod.snd hcontra
        omega
      obtain ⟨ih1, ih2⟩ := ih (j + 1) k hk
      have hget : (t :: rest).get ⟨k + 1, hi⟩ = rest.get ⟨k, hk⟩ := rfl
      constructor
      · intro h
        rw [hget] at h
        by_cases he : (findAppNos t).isEmpty
        · simp only [unmatchedPagesSpec, he, if_pos]
          rw [List.count_cons_of_ne hne, hji]
          exact ih1 h
        · simp only [unmatchedPagesSpec, he, if_neg]
          rw [hji]
          exact ih1 h
      · intro h
        rw [hget] at h
        by_cases he : (findAppNos t).isEmpty
        · simp only [unmatchedPagesSpec, he, if_pos, List.mem_cons]
          rintro (hc | hc)
          · exact hne hc
          · rw [hji] at hc
            exact ih2 h hc
        · simp only [unmatchedPagesSpec, he, if_neg]
          rw [hji]
          exact ih2 h

/-- C5.  For a PDF whose pages all extract without error, the
unmatched-page list is exactly the in-order list of `(path, index)` pairs
of the pages with zero matches; consequently every zero-match page
appears in it exactly once, paired with its zero-based index, and no
page with at least one match appears in it at all. -/
theorem process_pdf_unmatched_characterization (path : String)
    (pages : List String) :
    (process_pdf path (some (pages.map some))).2 =
      unmatchedPagesSpec path 0 pages ∧
    (∀ (i : Nat) (hi : i < pages.length),
      (findAppNos (pages.get ⟨i, hi⟩)).isEmpty = true →
        List.count (path, i) (process_pdf path (some (pages.map some))).2 = 1) ∧
    (∀ (i : Nat) (hi : i < pages.length),
      (findAppNos (pages.get ⟨i, hi⟩)).isEmpty = false →
        (path, i) ∉ (process_pdf path (some (pages.map some))).2) := by
  refine ⟨(process_pdf_ok path pages).symm ▸ rfl, ?_, ?_⟩
  · intro i hi h
    have := (unmatchedPagesSpec_count path pages 0 i hi).1 h
    rw [process_pdf_ok path pages]
    simpa using this
  · intro i hi h
    have := (unmatchedPagesSpec_count path pages 0 i hi).2 h
    rw [process_pdf_ok path pages]
    simpa using this

/-- C5 witness: in a two-page document whose first page has no match and
whose second page matches, the unmatched list holds page 0 exactly once. -/
theorem process_pdf_unmatched_characterization_witness :
    List.count ("p", 0)
      (process_pdf "p" (some ((["x", "Application No.7 A"]).map some))).2 = 1 :=
  (process_pdf_unmatched_characterization "p" ["x", "Application No.7 A"]).2.1
    0 (by decide) (by decide)

/-- C6.  For a run whose pages all extract without error, the combined
identifier list accumulated over the downloaded parts is exactly the
concatenation, in part order, then page order, then within-page match
order, of all pattern matches — duplicates are kept as they occur, and
nothing is sorted or deduplicated. -/
theorem combined_identifiers_concatenation
    (parts : List (String × List String)) :
    (combineExtract (parts.map fun pr => ⟨pr.1, some (pr.2.map some)⟩)).1 =
      (parts.map fun pr => (pr.2.map findAppNos).flatten).flatten := by
  induction parts with
  | nil => rfl
  | cons p rest ih =>
    simp [combineExtract, process_pdf_ok, ih]

/-- C7.  The most-recent-Friday computation equals
`today - ((today.weekday() - 4) mod 7)`; its result is itself a Friday,
lies at most six days in the past, and is `today` itself exactly when
today is a Friday.  The computation is a pure function of the calendar
day, so two calls within the same day give the same result. -/
theorem get_friday_date_spec (today : Int) :
    get_friday_date today = today - (pyWeekday today - 4) % 7 ∧
    pyWeekday (get_friday_date today) = 4 ∧
    get_friday_date today ≤ today ∧
    today - get_friday_date today < 7 ∧
    (pyWeekday today = 4 → get_friday_date today = today) := by
  unfold get_friday_date pyWeekday
  omega

/-- C7 witness: day 1 of the Unix epoch, 1970-01-02, was a Friday; the
computation maps it to itself. -/
theorem get_friday_date_spec_witness :
    pyWeekday (get_friday_date 1) = 4 ∧ get_friday_date 1 = 1 :=
  ⟨(get_friday_date_spec 1).2.1, (get_friday_date_spec 1).2.2.2.2 (by decide)⟩

/-- C8.  Saving the index after inserting the record for date `d` and
reloading it yields exactly the record saved for `d`, and the record's
path fields and identifier count read back unchanged. -/
theorem metadata_roundtrip (fs : Option Metadata) (m : Metadata)
    (d p e t : String) (n : Nat) :
    assocLookup
        (load_metadata (save_metadata fs (dictInsert m d (mkEntry p e n t)))) d
      = some (mkEntry p e n t) ∧
    jField (mkEntry p e n t) "pdf_dir" = some (Json.jstr p) ∧
    jField (mkEntry p e n t) "excel_file" = some (Json.jstr e) ∧
    jField (mkEntry p e n t) "total_applications" = some (Json.jnum n) := by
  refine ⟨?_, rfl, rfl, rfl⟩
  simp [load_metadata, save_metadata, assocLookup_dictInsert_self]

/-- C9.  A successful run for date `d` only touches the entry for `d`:
for every other key `k` the reloaded index holds exactly the value it
held before the run. -/
theorem process_journal_frame (d : String) (parts : List PdfFile) (ex : Bool)
    (now : String) (fs : Option Metadata) (k : String)
    (hparts : parts ≠ []) (hk : k ≠ d) :
    assocLookup (load_metadata (process_journal d parts ex now fs).2) k =
      assocLookup (load_metadata fs) k := by
  cases parts with
  | nil => exact absurd rfl hparts
  | cons p rest =>
    simp [process_journal, save_metadata, load_metadata,
      assocLookup_dictInsert_ne _ _ _ _ hk]

/-- C9 witness: processing date `A` leaves the pre-existing entry for
key `B` untouched. -/
theorem process_journal_frame_witness :
    assocLookup
        (load_metadata (process_journal "A" [⟨"p", none⟩] false "t"
          (some [("B", Json.jnum 5)])).2) "B" =
      assocLookup (load_metadata (some [("B", Json.jnum 5)])) "B" :=
  process_journal_frame "A" [⟨"p", none⟩] false "t"
    (some [("B", Json.jnum 5)]) "B" (by simp) (by decide)

/-- C10.  When writing the spreadsheet raises, `create_excel` returns
`None` instead of propagating; the run still returns `True` and still
writes an index entry for the date whose `excel_file` field is the
literal string `None` via `str(None)`, while `total_applications` is the
genuine extracted count. -/
theorem excel_failure_metadata (d : String) (parts : List PdfFile)
    (now : String) (fs : Option Metadata) (hparts : parts ≠ []) :
    create_excel (combineExtract parts).1 (excelPathFor d) true = none ∧
    (process_journal d parts true now fs).1 = true ∧
    assocLookup (load_metadata (process_journal d parts true now fs).2) d =
      some (mkEntry (dateDir d) "None" (combineExtract parts).1.length now) ∧
    jField (mkEntry (dateDir d) "None" (combineExtract parts).1.length now)
        "excel_file" = some (Json.jstr "None") := by
  cases parts with
  | nil => exact absurd rfl hparts
  | cons p rest =>
    refine ⟨rfl, ?_, ?_, rfl⟩
    · simp [process_journal]
    · simp [process_journal, create_excel, pyStrOfPath, save_metadata,
        load_metadata, assocLookup_dictInsert_self]

/-- C10 witness: a concrete run with a failing spreadsheet write still
returns `True`. -/
theorem excel_failure_metadata_witness :
    (process_journal "03 January 2025" [⟨"p", none⟩] true "t" none).1 = true :=
  (excel_failure_metadata "03 January 2025" [⟨"p", none⟩] "t" none (by simp)).2.1
